import Mathlib

/-!
Verification of the elf-limits tool (`src/main.rs`).

The development shallowly embeds the core of the program: the ELF
extraction (`read_elf_file`), the footprint summarisation (`size_summary`
and the `SizeSummary` methods), the limit evaluation (`LimitSummary`,
`parse_limit`) and the batch driver logic of `main`.

Modelling conventions:
* Rust `u64`/`usize` values are `Nat`; release-mode wrapping arithmetic is
  made explicit with `wadd`/`wsub` (reduction modulo `2 ^ 64`).
* The external decoder (`object` crate) is modelled at its interface: a
  `ParsedFile` holds what `file.segments()` and `file.sections()` expose
  (per segment: address, ELF flags when present, declared memory size, and
  the fallible file data, kept as its length; per section: the fallible
  name and the size).  `object::File::parse` itself is modelled as the
  `Except` argument of `read_elf_file`.
* Rust strings are `List Char`.  `char::is_numeric` and `str::trim` are
  modelled on the ASCII range (`Char.isDigit`, `Char.isWhitespace`), which
  agrees with Rust for every ASCII character.
* The `percent` function of the source computes with IEEE-754 `f64`
  operations; bit-exact float semantics fall outside this embedding, so
  the functions that merely transport its results (`limit_summaryP`,
  `fileSummaries`, `main_exit_failure`) take the percentage function as an
  explicit parameter `p`.
-/

namespace ElfLimits

/-- The modulus `2 ^ 64` of Rust `u64` arithmetic. -/
def M64 : Nat := 18446744073709551616

/-- Rust release-mode `u64` wrapping addition. -/
def wadd (a b : Nat) : Nat := (a + b) % M64

/-- Rust release-mode `u64` wrapping subtraction. -/
def wsub (a b : Nat) : Nat := (a % M64 + (M64 - b % M64)) % M64

/-- Source `enum SegmentType`. -/
inductive SegmentType where
  | Text
  | Data
  | RoData
deriving DecidableEq, Repr

/-- Source `struct Segment`. -/
structure Segment where
  _addr : Nat
  ty : SegmentType
  file_size : Nat
  zero_padding : Nat
deriving DecidableEq, Repr

/-- Source `struct ElfInfo`. -/
structure ElfInfo where
  segments : List Segment
  _entry : Nat
  stack_mem_size : Option Nat
  heap_mem_size : Option Nat
deriving DecidableEq, Repr

/-- Source `struct SizeSummary`. -/
structure SizeSummary where
  instruction_memory : Nat
  data_memory_total : Nat
  data_memory_stack : Option Nat
  data_memory_heap : Option Nat
deriving DecidableEq, Repr

/-- Source `struct LimitSummary`. -/
structure LimitSummary where
  total_limit : Option Nat
  total_fixed_limit : Option Nat
  instruction_limit : Option Nat
  data_limit : Option Nat
  data_fixed_limit : Option Nat
deriving DecidableEq, Repr

/-- One segment as the `object` decoder exposes it to `read_elf_file`:
`seg.flags()` (the ELF `p_flags` when the flags are ELF flags, `none`
otherwise), `seg.address()`, `seg.size()` (the declared memory size) and
`seg.data()` (fallible; only its length is used, so only the length is
kept). -/
structure RawSegment where
  _addr : Nat
  flags : Option Nat
  size : Nat
  data : Except String Nat

/-- One section as the decoder exposes it: `sec.name()` (fallible, modelled
as `Option`) and `sec.size()`. -/
structure RawSection where
  name : Option String
  size : Nat

/-- The decoder's view of one input file: `file.entry()`, `file.segments()`
and `file.sections()`. -/
structure ParsedFile where
  entry : Nat
  segments : List RawSegment
  sections : List RawSection

/-- ELF `PF_X`. -/
def PF_X : Nat := 1
/-- ELF `PF_W`. -/
def PF_W : Nat := 2
/-- ELF `PF_R`. -/
def PF_R : Nat := 4

/-- Source `const TEXT_FLAGS: u32 = elf::PF_X | elf::PF_R`. -/
def TEXT_FLAGS : Nat := PF_X + PF_R
/-- Source `const DATA_FLAGS: u32 = elf::PF_R | elf::PF_W`. -/
def DATA_FLAGS : Nat := PF_R + PF_W
/-- Source `const RODATA_FLAGS: u32 = elf::PF_R`. -/
def RODATA_FLAGS : Nat := PF_R

/-- The `match p_flags` of the segment loop in `read_elf_file`: an exact
match against `TEXT_FLAGS`, `DATA_FLAGS` or `RODATA_FLAGS`, every other
value falls to `_ => continue`. -/
def classifyFlags (p_flags : Nat) : Option SegmentType :=
  if p_flags = TEXT_FLAGS then some SegmentType.Text
  else if p_flags = DATA_FLAGS then some SegmentType.Data
  else if p_flags = RODATA_FLAGS then some SegmentType.RoData
  else none

/-- One iteration of the segment loop of `read_elf_file`: non-ELF flags and
unrecognised flag values `continue` (no segment, no error); recognised
segments read `seg.size()` and `seg.data()?` (a data error aborts the whole
read) and record `file_size = data.len()` and
`zero_padding = memsize - file_size` (unchecked `u64` subtraction, hence
`wsub`). -/
def processSegment (seg : RawSegment) : Except String (Option Segment) :=
  match seg.flags with
  | none => Except.ok none
  | some p_flags =>
    match classifyFlags p_flags with
    | none => Except.ok none
    | some ty =>
      match seg.data with
      | Except.error e => Except.error e
      | Except.ok len =>
        Except.ok (some { _addr := seg._addr, ty := ty, file_size := len,
                          zero_padding := wsub seg.size len })

/-- The segment loop of `read_elf_file`: segments are processed in file
order, kept segments are pushed in order, and the first `seg.data()`
failure aborts with that error. -/
def collectSegments : List RawSegment → Except String (List Segment)
  | [] => Except.ok []
  | seg :: rest =>
    match processSegment seg with
    | Except.error e => Except.error e
    | Except.ok o =>
      match collectSegments rest with
      | Except.error e => Except.error e
      | Except.ok tail =>
        Except.ok (match o with
                   | none => tail
                   | some s => s :: tail)

/-- One iteration of the section loop of `read_elf_file`: a section whose
name fails to read is skipped; a section named `".stack"` (resp. `".heap"`)
overwrites `stack_mem_size` (resp. `heap_mem_size`) with `some size` when
`size > 0` and with `none` otherwise; any other name is skipped. -/
def applySec (info : ElfInfo) (sec : RawSection) : ElfInfo :=
  match sec.name with
  | none => info
  | some n =>
    if n = ".stack" then
      { info with stack_mem_size := if sec.size > 0 then some sec.size else none }
    else if n = ".heap" then
      { info with heap_mem_size := if sec.size > 0 then some sec.size else none }
    else info

/-- Function `read_elf_file` of the source.  The argument stands for the outcome of
`object::File::parse(bytes)` (its `?` propagates a parse error); then the
segment loop runs, then the section loop. -/
def read_elf_file (parsed : Except String ParsedFile) : Except String ElfInfo :=
  match parsed with
  | Except.error e => Except.error e
  | Except.ok file =>
    match collectSegments file.segments with
    | Except.error e => Except.error e
    | Except.ok segs =>
      Except.ok (file.sections.foldl applySec
        { segments := segs, _entry := file.entry,
          stack_mem_size := none, heap_mem_size := none })

/-- One iteration of the summation loop of `size_summary`:
`mem_size = seg.file_size + seg.zero_padding`, added (`+=`, wrapping in
release mode) to `instruction_memory` for `Text` segments and to
`data_memory_total` for every other segment. -/
def addSeg (summary : SizeSummary) (seg : Segment) : SizeSummary :=
  let mem_size := wadd seg.file_size seg.zero_padding
  if seg.ty = SegmentType.Text then
    { summary with instruction_memory := wadd summary.instruction_memory mem_size }
  else
    { summary with data_memory_total := wadd summary.data_memory_total mem_size }

/-- The pure reduction inside `size_summary`: totals start at `0`, the
stack/heap reservations are copied from the `ElfInfo` unchanged, and the
segment loop accumulates. -/
def summarize (elf : ElfInfo) : SizeSummary :=
  elf.segments.foldl addSeg
    { instruction_memory := 0, data_memory_total := 0,
      data_memory_stack := elf.stack_mem_size,
      data_memory_heap := elf.heap_mem_size }

/-- Function `size_summary` of the source: `read_elf_file` then the reduction. -/
def size_summary (parsed : Except String ParsedFile) : Except String SizeSummary :=
  match read_elf_file parsed with
  | Except.error e => Except.error e
  | Except.ok elf => Except.ok (summarize elf)

/-- Method `SizeSummary::data_memory_dynamic` of the source (the `+` of the
both-present arm wraps in release mode). -/
def SizeSummary.data_memory_dynamic (s : SizeSummary) : Option Nat :=
  match s.data_memory_stack, s.data_memory_heap with
  | some st, some h => some (wadd st h)
  | some st, none => some st
  | none, some h => some h
  | none, none => none

/-- Method `SizeSummary::data_memory_fixed` of the source: unchecked `u64`
subtraction `data_memory_total - dynamic`, hence `wsub`. -/
def SizeSummary.data_memory_fixed (s : SizeSummary) : Nat :=
  wsub s.data_memory_total ((s.data_memory_dynamic).getD 0)

/-- Method `SizeSummary::total` of the source. -/
def SizeSummary.total (s : SizeSummary) : Nat :=
  wadd s.instruction_memory s.data_memory_total

/-- Method `SizeSummary::total_fixed` of the source. -/
def SizeSummary.total_fixed (s : SizeSummary) : Nat :=
  wadd s.instruction_memory s.data_memory_fixed

/-- The nested `fn over` of `LimitSummary::any_over_100_percent`:
`opt.map(|x| x > 100).unwrap_or(false)`. -/
def overOpt (opt : Option Nat) : Bool :=
  (opt.map fun x => decide (x > 100)).getD false

/-- Method `LimitSummary::any_over_100_percent` of the source. -/
def LimitSummary.any_over_100_percent (L : LimitSummary) (fixed_only : Bool) : Bool :=
  if fixed_only then
    overOpt L.total_fixed_limit || overOpt L.instruction_limit ||
      overOpt L.data_fixed_limit
  else
    overOpt L.total_limit || overOpt L.total_fixed_limit ||
      overOpt L.instruction_limit || overOpt L.data_limit ||
      overOpt L.data_fixed_limit

/-- Method `SizeSummary::limit_summary` of the source, with the source's `percent`
function (computed there with `f64` arithmetic) abstracted as the
parameter `p`. -/
def limit_summaryP (p : Nat → Nat → Nat) (s : SizeSummary)
    (total_limit instruction_limit data_limit : Option Nat) : LimitSummary :=
  { total_limit := total_limit.map fun limit => p s.total limit,
    total_fixed_limit := total_limit.map fun limit => p s.total_fixed limit,
    instruction_limit := instruction_limit.map fun limit => p s.instruction_memory limit,
    data_limit := data_limit.map fun limit => p s.data_memory_total limit,
    data_fixed_limit := data_limit.map fun limit => p s.data_memory_fixed limit }

/-- The per-file loop of `main`: each input stands for the combined outcome
of `std::fs::read` and `object::File::parse` for that file; a failure of
either, or of `size_summary`, prints to stderr and `continue`s, a success
pushes the summary paired with its limit evaluation. -/
def fileSummaries (p : Nat → Nat → Nat) (tl il dl : Option Nat)
    (files : List (Except String ParsedFile)) : List (SizeSummary × LimitSummary) :=
  files.filterMap fun contents =>
    match size_summary contents with
    | Except.error _ => none
    | Except.ok summary => some (summary, limit_summaryP p summary tl il dl)

/-- The exit-status computation of `main`: `ExitCode::FAILURE` exactly when
some successfully processed file reports `any_over_100_percent`. -/
def main_exit_failure (p : Nat → Nat → Nat) (fixed_only : Bool)
    (tl il dl : Option Nat) (files : List (Except String ParsedFile)) : Bool :=
  (fileSummaries p tl il dl files).any fun pr =>
    pr.2.any_over_100_percent fixed_only

/-- Rust `u8::to_ascii_lowercase`, as `str::to_ascii_lowercase` applies it
characterwise: `'A'..'Z'` map to `'a'..'z'`, everything else is kept. -/
def toAsciiLower (c : Char) : Char :=
  if 65 ≤ c.toNat ∧ c.toNat ≤ 90 then Char.ofNat (c.toNat + 32) else c

/-- Rust `char::is_numeric`, modelled on the ASCII range (on ASCII it holds
exactly for `'0'..'9'`; non-ASCII numerals would in any case fail the
subsequent `u64` parse in the source). -/
def isNumericChar (c : Char) : Bool := c.isDigit

/-- Rust `str::trim`, modelled on ASCII whitespace. -/
def trimChars (cs : List Char) : List Char :=
  ((cs.dropWhile Char.isWhitespace).reverse.dropWhile Char.isWhitespace).reverse

/-- Rust `str::strip_suffix`: the text before the suffix when the suffix
matches, `none` otherwise. -/
def stripSuffix (s suf : List Char) : Option (List Char) :=
  if suf.isSuffixOf s then some (s.take (s.length - suf.length)) else none

/-- The first entry of `units` whose suffix matches `s`, with the stripped
text: the shape of the `strip_suffix` if-let chain of `parse_limit`. -/
def findSuffix (units : List (List Char × Nat)) (s : List Char) :
    Option (List Char × Nat) :=
  match units with
  | [] => none
  | (suf, u) :: rest =>
    match stripSuffix s suf with
    | some num => some (num, u)
    | none => findSuffix rest s

/-- The unit suffixes in the exact order the `parse_limit` if-let chain of
the source tries them, with the multiplier of each arm. -/
def codeUnits : List (List Char × Nat) :=
  [("tb".toList, 1000 * 1000 * 1000 * 1000),
   ("tib".toList, 1024 * 1024 * 1024 * 1024),
   ("t".toList, 1024 * 1024 * 1024 * 1024),
   ("gb".toList, 1000 * 1000 * 1000),
   ("gib".toList, 1024 * 1024 * 1024),
   ("g".toList, 1024 * 1024 * 1024),
   ("mb".toList, 1000 * 1000),
   ("mib".toList, 1024 * 1024),
   ("m".toList, 1024 * 1024),
   ("kb".toList, 1000),
   ("kib".toList, 1024),
   ("k".toList, 1024),
   ("b".toList, 1)]

/-- The hint string of `parse_limit`'s errors. -/
def limitHint : String :=
  "limit must be a number followed by an optional SI unit (GiB, KB, etc)"

/-- Rust `u64::from_str`: an optional leading `'+'`, then one or more ASCII
digits whose value fits in `u64`; the error strings are those of
`core::num::ParseIntError`. -/
def parseU64 (cs : List Char) : Except String Nat :=
  match cs with
  | [] => Except.error "cannot parse integer from empty string"
  | c :: rest =>
    let ds := if c = '+' then rest else cs
    if ds = [] then Except.error "cannot parse integer from empty string"
    else if ds.all Char.isDigit then
      let v := ds.foldl (fun a d => a * 10 + (d.toNat - 48)) 0
      if v < M64 then Except.ok v
      else Except.error "number too large to fit in target type"
    else Except.error "invalid digit found in string"

/-- The common tail of every `parse_limit` arm:
`num_part.parse::<u64>()`, then `Ok(num * unit_value)` (the multiplication
wraps in release mode) or the hint together with the parse error. -/
def finishLimit (num_part : List Char) (unit_value : Nat) : Except String Nat :=
  match parseU64 num_part with
  | Except.ok num => Except.ok ((num * unit_value) % M64)
  | Except.error err => Except.error (limitHint ++ ". " ++ err)

/-- Function `parse_limit` of the source: lowercase the input, try the suffixes in
the order of the source's if-let chain (`codeUnits`), trim the remaining
numeric part and parse it; with no suffix, accept only when the whole
trimmed string is numeric; otherwise the hint error. -/
def parse_limit (input : List Char) : Except String Nat :=
  let s := input.map toAsciiLower
  match findSuffix codeUnits s with
  | some (num, unit_value) => finishLimit (trimChars num) unit_value
  | none =>
    if (trimChars s).all isNumericChar then finishLimit (trimChars s) 1
    else Except.error limitHint

/-- The unit suffixes ordered longest first, as C3's amended wording asks
(ties in length never overlap on one string), with the claimed multipliers:
`b`=1, `k`=1024, `kb`=1000, `kib`=1024, `m`=1024^2, `mb`=1000^2,
`mib`=1024^2, `g`=1024^3, `gb`=1000^3, `gib`=1024^3, `t`=1024^4,
`tb`=1000^4, `tib`=1024^4. -/
def specUnits : List (List Char × Nat) :=
  [("tib".toList, 1024 * 1024 * 1024 * 1024),
   ("gib".toList, 1024 * 1024 * 1024),
   ("mib".toList, 1024 * 1024),
   ("kib".toList, 1024),
   ("tb".toList, 1000 * 1000 * 1000 * 1000),
   ("gb".toList, 1000 * 1000 * 1000),
   ("mb".toList, 1000 * 1000),
   ("kb".toList, 1000),
   ("t".toList, 1024 * 1024 * 1024 * 1024),
   ("g".toList, 1024 * 1024 * 1024),
   ("m".toList, 1024 * 1024),
   ("k".toList, 1024),
   ("b".toList, 1)]

/-- The amended C3 grammar as a parser: case-insensitive unit suffix
matched longest-suffix-first (`specUnits`), whitespace around the numeric
part trimmed, the numeric part parsed as Rust parses a `u64` (digits with
an optional leading `'+'`); with no suffix, accepted only when the whole
trimmed string is numeric; anything else is the hint error. -/
def parseLimitSpec (input : List Char) : Except String Nat :=
  let s := input.map toAsciiLower
  match findSuffix specUnits s with
  | some (num, unit_value) => finishLimit (trimChars num) unit_value
  | none =>
    if (trimChars s).all isNumericChar then finishLimit (trimChars s) 1
    else Except.error limitHint

/-- The acceptance predicate of claim C3 exactly as the claim states it: a
non-empty, separator-free string of digits, optionally followed directly
(nothing in between) by one case-insensitive unit suffix of the table. -/
def claimGrammarAccepts (input : List Char) : Bool :=
  let s := input.map toAsciiLower
  (!s.isEmpty && s.all isNumericChar) ||
    specUnits.any fun su =>
      match stripSuffix s su.1 with
      | some num => !num.isEmpty && num.all isNumericChar
      | none => false

/-- The sections of `secs` whose name read successfully and equals `nm`. -/
def matchingSections (nm : String) (secs : List RawSection) : List RawSection :=
  secs.filter fun sec => sec.name = some nm

/-- The reservation rule of claim C8, written from the claim's words: the
last section named `nm` determines the result — `some size` when its size
is strictly positive, `none` when it is 0 — and the result is `none` when
no section matches. -/
def lastNamedReservation (nm : String) (secs : List RawSection) : Option Nat :=
  match (matchingSections nm secs).getLast? with
  | none => none
  | some sec => if sec.size > 0 then some sec.size else none

/-! ## Claim theorems -/

/-- C1: the claim says a segment reporting `file_bytes > memory_size` must
surface as an extraction error and never wrap or panic.  The code computes
`padding = memsize - file_size` with an unchecked `u64` subtraction: at a
`PF_X|PF_R` segment with declared memory size 0 and 1 byte of file data,
`read_elf_file` returns `Ok` with a padding wrapped to `2 ^ 64 - 1`
(release mode; a debug build panics) instead of an error. -/
theorem claim_C1_underflow_wraps_not_error :
    read_elf_file (Except.ok
        (ParsedFile.mk 0 [RawSegment.mk 0 (some TEXT_FLAGS) 0 (Except.ok 1)] []))
      = Except.ok
          (ElfInfo.mk [Segment.mk 0 SegmentType.Text 1 18446744073709551615]
            0 none none) := by
  rfl

/-- C2: `data_memory_dynamic` is `none` exactly when both the stack and the
heap reservation are `none`, and otherwise it is the sum of whichever are
present; and `data_memory_fixed + data_memory_dynamic.unwrap_or(0)` gives
back `data_memory_total` (the `u64` arithmetic of the source, so `wadd`;
the bounds hypotheses say the fields hold `u64` values). -/
theorem claim_C2_dynamic_fixed_total (s : SizeSummary)
    (hs : s.data_memory_stack.getD 0 < M64)
    (hh : s.data_memory_heap.getD 0 < M64)
    (ht : s.data_memory_total < M64) :
    (s.data_memory_dynamic = none ↔
      s.data_memory_stack = none ∧ s.data_memory_heap = none)
    ∧ wadd s.data_memory_fixed (s.data_memory_dynamic.getD 0) =
        s.data_memory_total
    ∧ (∀ a b, s.data_memory_stack = some a → s.data_memory_heap = some b →
        s.data_memory_dynamic = some (wadd a b))
    ∧ (∀ a, s.data_memory_stack = some a → s.data_memory_heap = none →
        s.data_memory_dynamic = some a)
    ∧ (∀ b, s.data_memory_stack = none → s.data_memory_heap = some b →
        s.data_memory_dynamic = some b) := by
  obtain ⟨im, t, st, hp⟩ := s
  rcases st with _ | a <;> rcases hp with _ | b <;>
    simp_all [SizeSummary.data_memory_dynamic, SizeSummary.data_memory_fixed,
      wadd, wsub, M64] <;> omega

/-- Witness for C2 at a concrete summary (total 100, stack 30, heap 20). -/
theorem claim_C2_witness :
    wadd (SizeSummary.data_memory_fixed (SizeSummary.mk 0 100 (some 30) (some 20)))
      ((SizeSummary.data_memory_dynamic
          (SizeSummary.mk 0 100 (some 30) (some 20))).getD 0) = 100 :=
  (claim_C2_dynamic_fixed_total (SizeSummary.mk 0 100 (some 30) (some 20))
    (by decide) (by decide) (by decide)).2.1

/-- Arm `over` of `any_over_100_percent` holds exactly at a present
percentage strictly above 100. -/
theorem overOpt_eq_true_iff (o : Option Nat) :
    overOpt o = true ↔ ∃ v, o = some v ∧ 100 < v := by
  cases o <;> simp [overOpt]

/-- C5: with every metric consulted (`fixed_only = false`), the file is
flagged exactly when some metric with a configured limit has a percentage
strictly greater than 100 (so exactly 100 is never flagged), and a metric
whose limit is not configured yields no percentage at all, hence is
excluded from the check.  The source's `percent` (an `f64` computation) is
the abstract parameter `p`. -/
theorem claim_C5_over_limit_iff (p : Nat → Nat → Nat) (s : SizeSummary)
    (tl il dl : Option Nat) :
    ((limit_summaryP p s tl il dl).any_over_100_percent false = true ↔
      ((∃ v, (limit_summaryP p s tl il dl).total_limit = some v ∧ 100 < v) ∨
       (∃ v, (limit_summaryP p s tl il dl).total_fixed_limit = some v ∧ 100 < v) ∨
       (∃ v, (limit_summaryP p s tl il dl).instruction_limit = some v ∧ 100 < v) ∨
       (∃ v, (limit_summaryP p s tl il dl).data_limit = some v ∧ 100 < v) ∨
       (∃ v, (limit_summaryP p s tl il dl).data_fixed_limit = some v ∧ 100 < v)))
    ∧ (tl = none → (limit_summaryP p s tl il dl).total_limit = none ∧
        (limit_summaryP p s tl il dl).total_fixed_limit = none)
    ∧ (il = none → (limit_summaryP p s tl il dl).instruction_limit = none)
    ∧ (dl = none → (limit_summaryP p s tl il dl).data_limit = none ∧
        (limit_summaryP p s tl il dl).data_fixed_limit = none) := by
  refine ⟨?_, ?_, ?_, ?_⟩
  · simp [LimitSummary.any_over_100_percent, overOpt_eq_true_iff, or_assoc]
  · rintro rfl; simp [limit_summaryP]
  · rintro rfl; simp [limit_summaryP]
  · rintro rfl; simp [limit_summaryP]

/-- C10: with `--fixed-only`, the over-limit decision consults only the
`total_fixed`, `instruction` and `data_fixed` percentages: whenever each of
those is absent or at most 100, the file is not flagged, whatever the
non-fixed `total` and `data` percentages are (so, through the exit loop of
`main`, it contributes no failure exit code). -/
theorem claim_C10_fixed_only_ignores_nonfixed (L : LimitSummary)
    (h1 : L.total_fixed_limit.getD 0 ≤ 100)
    (h2 : L.instruction_limit.getD 0 ≤ 100)
    (h3 : L.data_fixed_limit.getD 0 ≤ 100) :
    L.any_over_100_percent true = false := by
  obtain ⟨tl, tfl, il, dl, dfl⟩ := L
  rcases tfl with _ | a <;> rcases il with _ | b <;> rcases dfl with _ | c <;>
    simp_all [LimitSummary.any_over_100_percent, overOpt]

/-- Witness for C10: non-fixed total and data percentages of 150 do not
flag the file while the fixed metrics stay at or under 100. -/
theorem claim_C10_witness :
    LimitSummary.any_over_100_percent
      (LimitSummary.mk (some 150) (some 90) none (some 150) (some 100)) true
      = false :=
  claim_C10_fixed_only_ignores_nonfixed
    (LimitSummary.mk (some 150) (some 90) none (some 150) (some 100))
    (by decide) (by decide) (by decide)

/-- C6: a segment whose ELF flags are exactly `PF_X|PF_R` is classified
`Text` (instructions), exactly `PF_R|PF_W` is `Data`, exactly `PF_R` is
`RoData`; a segment with any other flag value — or with non-ELF flags — is
dropped silently: it yields no segment and no error, and its presence
anywhere in the segment list leaves the extracted list unchanged. -/
theorem claim_C6_flag_classification (seg : RawSegment) :
    (∀ pf, seg.flags = some pf → pf ≠ TEXT_FLAGS → pf ≠ DATA_FLAGS →
      pf ≠ RODATA_FLAGS → processSegment seg = Except.ok none)
    ∧ (seg.flags = none → processSegment seg = Except.ok none)
    ∧ (∀ n, seg.flags = some TEXT_FLAGS → seg.data = Except.ok n →
        processSegment seg = Except.ok (some
          (Segment.mk seg._addr SegmentType.Text n (wsub seg.size n))))
    ∧ (∀ n, seg.flags = some DATA_FLAGS → seg.data = Except.ok n →
        processSegment seg = Except.ok (some
          (Segment.mk seg._addr SegmentType.Data n (wsub seg.size n))))
    ∧ (∀ n, seg.flags = some RODATA_FLAGS → seg.data = Except.ok n →
        processSegment seg = Except.ok (some
          (Segment.mk seg._addr SegmentType.RoData n (wsub seg.size n))))
    ∧ (∀ pre post, processSegment seg = Except.ok none →
        collectSegments (pre ++ seg :: post) = collectSegments (pre ++ post)) := by
  refine ⟨?_, ?_, ?_, ?_, ?_, ?_⟩
  · intro pf h1 h2 h3 h4
    simp [processSegment, h1, classifyFlags, h2, h3, h4]
  · intro h
    simp [processSegment, h]
  · intro n h1 h2
    simp [processSegment, h1, h2, classifyFlags]
  · intro n h1 h2
    simp [processSegment, h1, h2, classifyFlags, TEXT_FLAGS, DATA_FLAGS,
      RODATA_FLAGS, PF_X, PF_W, PF_R]
  · intro n h1 h2
    simp [processSegment, h1, h2, classifyFlags, TEXT_FLAGS, DATA_FLAGS,
      RODATA_FLAGS, PF_X, PF_W, PF_R]
  · intro pre post h
    induction pre with
    | nil =>
      cases hc : collectSegments post <;>
        simp [collectSegments, h, hc]
    | cons a pre ih =>
      cases ha : processSegment a <;>
        simp [collectSegments, ha, ih]

/-- Memory size of one extracted segment, `file_size + zero_padding` as the
summation loop of `size_summary` computes it. -/
def memSize (seg : Segment) : Nat := wadd seg.file_size seg.zero_padding

/-- Unfolding of the summation loop of `size_summary`: starting from a
state with `u64` totals `i` and `d`, the loop adds the memory sizes of the
`Text` segments to the instruction total and of the `Data`/`RoData`
segments to the data total, modulo `2 ^ 64`, and never touches the
stack/heap fields. -/
theorem foldl_addSeg (l : List Segment) (i d : Nat) (st hp : Option Nat)
    (hi : i < M64) (hd : d < M64) :
    l.foldl addSeg (SizeSummary.mk i d st hp) =
      SizeSummary.mk
        ((i + ((l.filter fun g => g.ty = SegmentType.Text).map memSize).sum) % M64)
        ((d + ((l.filter fun g =>
            g.ty = SegmentType.Data ∨ g.ty = SegmentType.RoData).map memSize).sum) % M64)
        st hp := by
  induction l generalizing i d with
  | nil =>
    simp [Nat.mod_eq_of_lt hi, Nat.mod_eq_of_lt hd]
  | cons g l ih =>
    have hM : 0 < M64 := by decide
    cases hty : g.ty with
    | Text =>
      rw [List.foldl_cons, show addSeg (SizeSummary.mk i d st hp) g =
          SizeSummary.mk (wadd i (memSize g)) d st hp by
            simp [addSeg, hty, memSize]]
      rw [ih (wadd i (memSize g)) d (Nat.mod_lt _ hM) hd]
      simp only [List.filter_cons, hty]
      simp [wadd, M64]
      omega
    | Data =>
      rw [List.foldl_cons, show addSeg (SizeSummary.mk i d st hp) g =
          SizeSummary.mk i (wadd d (memSize g)) st hp by
            simp [addSeg, hty, memSize]]
      rw [ih i (wadd d (memSize g)) hi (Nat.mod_lt _ hM)]
      simp only [List.filter_cons, hty]
      simp [wadd, M64]
      omega
    | RoData =>
      rw [List.foldl_cons, show addSeg (SizeSummary.mk i d st hp) g =
          SizeSummary.mk i (wadd d (memSize g)) st hp by
            simp [addSeg, hty, memSize]]
      rw [ih i (wadd d (memSize g)) hi (Nat.mod_lt _ hM)]
      simp only [List.filter_cons, hty]
      simp [wadd, M64]
      omega

/-- C7: summarisation is a pure reduction with no failure mode: the
instruction total is the sum of the memory sizes (`file_size +
zero_padding`) of the `Text` segments, the data total the sum over the
`Data` and `RoData` segments (`u64` sums, hence modulo `2 ^ 64`), the
stack/heap reservations pass through unchanged, and an empty segment list
yields all-zero totals. -/
theorem claim_C7_summarize_totals (elf : ElfInfo) :
    (summarize elf).instruction_memory =
      (((elf.segments.filter fun g => g.ty = SegmentType.Text).map memSize).sum) % M64
    ∧ (summarize elf).data_memory_total =
      (((elf.segments.filter fun g =>
          g.ty = SegmentType.Data ∨ g.ty = SegmentType.RoData).map memSize).sum) % M64
    ∧ (summarize elf).data_memory_stack = elf.stack_mem_size
    ∧ (summarize elf).data_memory_heap = elf.heap_mem_size
    ∧ (elf.segments = [] →
        (summarize elf).instruction_memory = 0 ∧
          (summarize elf).data_memory_total = 0) := by
  have h := foldl_addSeg elf.segments 0 0 elf.stack_mem_size elf.heap_mem_size
    (by decide) (by decide)
  unfold summarize
  rw [h]
  refine ⟨by simp, by simp, rfl, rfl, ?_⟩
  intro h0
  rw [h0]
  simp

/-- Unfolding of the section loop for the stack field: the final
`stack_mem_size` is decided by the last `".stack"` section (its
size-positive rule), and is the initial value when none matches. -/
theorem foldl_applySec_stack (secs : List RawSection) (init : ElfInfo) :
    (secs.foldl applySec init).stack_mem_size =
      (match (matchingSections ".stack" secs).getLast? with
       | none => init.stack_mem_size
       | some sec => if sec.size > 0 then some sec.size else none) := by
  induction secs using List.reverseRecOn with
  | nil => simp [matchingSections]
  | append_singleton l a ih =>
    rw [List.foldl_append]
    simp only [List.foldl_cons, List.foldl_nil]
    simp only [matchingSections, List.filter_append]
    cases ha : a.name with
    | none =>
      have h1 : applySec (l.foldl applySec init) a = l.foldl applySec init := by
        simp [applySec, ha]
      rw [h1]
      simp only [List.filter_cons, List.filter_nil, ha]
      simp [matchingSections] at ih
      simp [ih]
    | some n =>
      by_cases hn : n = ".stack"
      · subst hn
        have h1 : (applySec (l.foldl applySec init) a).stack_mem_size =
            (if a.size > 0 then some a.size else none) := by
          simp [applySec, ha]
        rw [h1]
        simp [List.filter_cons, ha, List.getLast?_concat]
      · have h1 : (applySec (l.foldl applySec init) a).stack_mem_size =
            (l.foldl applySec init).stack_mem_size := by
          by_cases hh : n = ".heap" <;> simp [applySec, ha, hn, hh]
        rw [h1]
        have h2 : a.name = some ".stack" ↔ False := by simp [ha, hn]
        simp only [List.filter_cons, List.filter_nil, h2]
        simp [matchingSections] at ih
        simp [ih]

/-- Unfolding of the section loop for the heap field, the mirror image of
`foldl_applySec_stack`. -/
theorem foldl_applySec_heap (secs : List RawSection) (init : ElfInfo) :
    (secs.foldl applySec init).heap_mem_size =
      (match (matchingSections ".heap" secs).getLast? with
       | none => init.heap_mem_size
       | some sec => if sec.size > 0 then some sec.size else none) := by
  induction secs using List.reverseRecOn with
  | nil => simp [matchingSections]
  | append_singleton l a ih =>
    rw [List.foldl_append]
    simp only [List.foldl_cons, List.foldl_nil]
    simp only [matchingSections, List.filter_append]
    cases ha : a.name with
    | none =>
      have h1 : applySec (l.foldl applySec init) a = l.foldl applySec init := by
        simp [applySec, ha]
      rw [h1]
      simp only [List.filter_cons, List.filter_nil, ha]
      simp [matchingSections] at ih
      simp [ih]
    | some n =>
      by_cases hn : n = ".heap"
      · subst hn
        have h1 : (applySec (l.foldl applySec init) a).heap_mem_size =
            (if a.size > 0 then some a.size else none) := by
          simp [applySec, ha]
        rw [h1]
        simp [List.filter_cons, ha, List.getLast?_concat]
      · have h1 : (applySec (l.foldl applySec init) a).heap_mem_size =
            (l.foldl applySec init).heap_mem_size := by
          by_cases hs : n = ".stack" <;> simp [applySec, ha, hn, hs]
        rw [h1]
        have h2 : a.name = some ".heap" ↔ False := by simp [ha, hn]
        simp only [List.filter_cons, List.filter_nil, h2]
        simp [matchingSections] at ih
        simp [ih]

/-- C8: on an input whose segment loop succeeds, `read_elf_file` succeeds
and its stack (resp. heap) reservation is governed by the last section
exactly named `".stack"` (resp. `".heap"`): `some size` when that
section's size is strictly positive, `none` when it is zero, and `none`
when no section carries the name. -/
theorem claim_C8_reservation_rule (pf : ParsedFile) (segs : List Segment)
    (h : collectSegments pf.segments = Except.ok segs) :
    ∃ info, read_elf_file (Except.ok pf) = Except.ok info
      ∧ info.stack_mem_size = lastNamedReservation ".stack" pf.sections
      ∧ info.heap_mem_size = lastNamedReservation ".heap" pf.sections := by
  refine ⟨pf.sections.foldl applySec
      (ElfInfo.mk segs pf.entry none none), ?_, ?_, ?_⟩
  · simp [read_elf_file, h]
  · rw [foldl_applySec_stack]
    unfold lastNamedReservation
    cases (matchingSections ".stack" pf.sections).getLast? <;> simp
  · rw [foldl_applySec_heap]
    unfold lastNamedReservation
    cases (matchingSections ".heap" pf.sections).getLast? <;> simp

/-- Witness for C8: two `".stack"` sections (sizes 5 then 0) and one
`".heap"` section (size 7) — the last `".stack"` wins, so the stack
reservation is `none` and the heap reservation `some 7`. -/
theorem claim_C8_witness :
    ∃ info,
      read_elf_file (Except.ok (ParsedFile.mk 3 []
          [RawSection.mk (some ".stack") 5, RawSection.mk (some ".stack") 0,
           RawSection.mk (some ".heap") 7])) = Except.ok info
        ∧ info.stack_mem_size = none ∧ info.heap_mem_size = some 7 := by
  obtain ⟨info, h1, h2, h3⟩ := claim_C8_reservation_rule
    (ParsedFile.mk 3 []
      [RawSection.mk (some ".stack") 5, RawSection.mk (some ".stack") 0,
       RawSection.mk (some ".heap") 7]) [] rfl
  exact ⟨info, h1, by rw [h2]; rfl, by rw [h3]; rfl⟩

/-- C9: a file whose read or extraction fails is skipped — the summaries
of the remaining files are exactly those computed without it — the exit
status is a failure exactly when some successfully processed file has a
metric over its configured limit, and zero input files exit with success.
The source's `f64` `percent` is the abstract parameter `p`. -/
theorem claim_C9_batch_errors_and_exit (p : Nat → Nat → Nat) (fixed_only : Bool)
    (tl il dl : Option Nat) :
    (∀ pre post f e, size_summary f = Except.error e →
      fileSummaries p tl il dl (pre ++ f :: post) =
        fileSummaries p tl il dl (pre ++ post))
    ∧ (∀ files, main_exit_failure p fixed_only tl il dl files = true ↔
        ∃ pr ∈ fileSummaries p tl il dl files,
          pr.2.any_over_100_percent fixed_only = true)
    ∧ main_exit_failure p fixed_only tl il dl [] = false := by
  refine ⟨?_, ?_, rfl⟩
  · intro pre post f e h
    induction pre with
    | nil =>
      simp [fileSummaries, List.filterMap_cons, h]
    | cons a pre ih =>
      cases ha : size_summary a <;>
        simp_all [fileSummaries, List.filterMap_cons]
  · intro files
    simp [main_exit_failure, List.any_eq_true]

/-- Helper: a list that is not a suffix of a (no shorter) matched suffix
`b` of `s` is no suffix of `s` either. -/
theorem not_suffix_of_ne {a b s : List Char} (hb : b <:+ s)
    (hlen : a.length ≤ b.length) (hab : ¬ a <:+ b) : ¬ a <:+ s :=
  fun ha => hab (List.suffix_of_suffix_length_le ha hb hlen)

/-- The if-let chain order of the source (`codeUnits`) and the
longest-suffix-first order (`specUnits`) pick the same unit on every
string: two unit suffixes can only match the same string when one is a
suffix of the other, which among these units happens only for `b` under
the longer `…b` units, and both orders try `b` after all of those. -/
theorem findSuffix_code_eq_spec (s : List Char) :
    findSuffix codeUnits s = findSuffix specUnits s := by
  by_cases h1 : ['t', 'i', 'b'] <:+ s
  · have n1 : ¬ ['t', 'b'] <:+ s := not_suffix_of_ne h1 (by decide) (by decide)
    simp [findSuffix, codeUnits, specUnits, stripSuffix, h1, n1]
  · by_cases h2 : ['g', 'i', 'b'] <:+ s
    · have n1 : ¬ ['t', 'b'] <:+ s := not_suffix_of_ne h2 (by decide) (by decide)
      have n2 : ¬ ['t'] <:+ s := not_suffix_of_ne h2 (by decide) (by decide)
      have n3 : ¬ ['g', 'b'] <:+ s := not_suffix_of_ne h2 (by decide) (by decide)
      simp [findSuffix, codeUnits, specUnits, stripSuffix, h1, h2, n1, n2, n3]
    · by_cases h3 : ['m', 'i', 'b'] <:+ s
      · have n1 : ¬ ['t', 'b'] <:+ s := not_suffix_of_ne h3 (by decide) (by decide)
        have n2 : ¬ ['t'] <:+ s := not_suffix_of_ne h3 (by decide) (by decide)
        have n3 : ¬ ['g', 'b'] <:+ s := not_suffix_of_ne h3 (by decide) (by decide)
        have n4 : ¬ ['g'] <:+ s := not_suffix_of_ne h3 (by decide) (by decide)
        have n5 : ¬ ['m', 'b'] <:+ s := not_suffix_of_ne h3 (by decide) (by decide)
        simp [findSuffix, codeUnits, specUnits, stripSuffix, h1, h2, h3, n1, n2, n3, n4, n5]
      · by_cases h4 : ['k', 'i', 'b'] <:+ s
        · have n1 : ¬ ['t', 'b'] <:+ s := not_suffix_of_ne h4 (by decide) (by decide)
          have n2 : ¬ ['t'] <:+ s := not_suffix_of_ne h4 (by decide) (by decide)
          have n3 : ¬ ['g', 'b'] <:+ s := not_suffix_of_ne h4 (by decide) (by decide)
          have n4 : ¬ ['g'] <:+ s := not_suffix_of_ne h4 (by decide) (by decide)
          have n5 : ¬ ['m', 'b'] <:+ s := not_suffix_of_ne h4 (by decide) (by decide)
          have n6 : ¬ ['m'] <:+ s := not_suffix_of_ne h4 (by decide) (by decide)
          have n7 : ¬ ['k', 'b'] <:+ s := not_suffix_of_ne h4 (by decide) (by decide)
          simp [findSuffix, codeUnits, specUnits, stripSuffix, h1, h2, h3, h4, n1, n2, n3, n4, n5, n6, n7]
        · by_cases h5 : ['t', 'b'] <:+ s
          · simp [findSuffix, codeUnits, specUnits, stripSuffix, h1, h2, h3, h4, h5]
          · by_cases h6 : ['g', 'b'] <:+ s
            · have n1 : ¬ ['t'] <:+ s := not_suffix_of_ne h6 (by decide) (by decide)
              simp [findSuffix, codeUnits, specUnits, stripSuffix, h1, h2, h3, h4, h5, h6, n1]
            · by_cases h7 : ['m', 'b'] <:+ s
              · have n1 : ¬ ['t'] <:+ s := not_suffix_of_ne h7 (by decide) (by decide)
                have n2 : ¬ ['g'] <:+ s := not_suffix_of_ne h7 (by decide) (by decide)
                simp [findSuffix, codeUnits, specUnits, stripSuffix, h1, h2, h3, h4, h5, h6, h7, n1, n2]
              · by_cases h8 : ['k', 'b'] <:+ s
                · have n1 : ¬ ['t'] <:+ s := not_suffix_of_ne h8 (by decide) (by decide)
                  have n2 : ¬ ['g'] <:+ s := not_suffix_of_ne h8 (by decide) (by decide)
                  have n3 : ¬ ['m'] <:+ s := not_suffix_of_ne h8 (by decide) (by decide)
                  simp [findSuffix, codeUnits, specUnits, stripSuffix, h1, h2, h3, h4, h5, h6, h7, h8, n1, n2, n3]
                · by_cases h9 : ['t'] <:+ s
                  · simp [findSuffix, codeUnits, specUnits, stripSuffix, h1, h2, h3, h4, h5, h6, h7, h8, h9]
                  · by_cases h10 : ['g'] <:+ s
                    · simp [findSuffix, codeUnits, specUnits, stripSuffix, h1, h2, h3, h4, h5, h6, h7, h8, h9, h10]
                    · by_cases h11 : ['m'] <:+ s
                      · simp [findSuffix, codeUnits, specUnits, stripSuffix, h1, h2, h3, h4, h5, h6, h7, h8, h9, h10, h11]
                      · by_cases h12 : ['k'] <:+ s
                        · simp [findSuffix, codeUnits, specUnits, stripSuffix, h1, h2, h3, h4, h5, h6, h7, h8, h9, h10, h11, h12]
                        · by_cases h13 : ['b'] <:+ s
                          · simp [findSuffix, codeUnits, specUnits, stripSuffix, h1, h2, h3, h4, h5, h6, h7, h8, h9, h10, h11, h12, h13]
                          · simp [findSuffix, codeUnits, specUnits, stripSuffix, h1, h2, h3, h4, h5, h6, h7, h8, h9, h10, h11, h12, h13]

/-- C3 (amended): `parse_limit` accepts exactly the amended grammar —
digits with an optional leading `'+'`, whitespace around the numeric part
trimmed, optionally followed by a case-insensitive unit suffix matched
longest-suffix-first with the claimed multipliers, no suffix meaning bytes
and accepted only when the whole trimmed string is numeric, everything
else a parse error carrying the human-readable hint — stated as pointwise
equality with `parseLimitSpec`, the parser written from that wording;
together with the claim's round-trip examples. -/
theorem claim_C3_parse_limit_amended :
    (∀ s, parse_limit s = parseLimitSpec s)
    ∧ parse_limit "1KiB".toList = Except.ok 1024
    ∧ parse_limit "1KB".toList = Except.ok 1000
    ∧ parse_limit "1k".toList = Except.ok 1024
    ∧ parse_limit "512".toList = Except.ok 512 := by
  refine ⟨fun s => ?_, rfl, rfl, rfl, rfl⟩
  simp only [parse_limit, parseLimitSpec, findSuffix_code_eq_spec]

/-- C3 counterexample: the string `"1 k"` is not of the claimed form
(a numeric literal directly followed by a unit suffix — the blank is in
neither part), yet `parse_limit` accepts it as 1024 because the source
trims the numeric part after stripping the suffix. -/
theorem claim_C3_counterexample_whitespace :
    claimGrammarAccepts "1 k".toList = false
      ∧ parse_limit "1 k".toList = Except.ok 1024 :=
  ⟨rfl, rfl⟩

end ElfLimits
